import Mathlib

/-!
Verification of the export-map resolution and configuration-assembly engine
of `typedoc-d-ts`, shallowly embedded from `src/generator/data/PackageJson.js`
and `src/generator/validation.js`.
-/

/-- Shallow model of a JavaScript value at the granularity the manifest and
configuration fields are inspected: the `typeof` level plus string payloads. -/
inductive JSVal where
  | undef
  | jsNull
  | str (s : String)
  | num (n : Int)
  | boolVal (b : Bool)
  | obj
deriving DecidableEq

/-- `typeof v === object` in JavaScript: true for plain objects and also for
`null` (the well-known quirk), false for strings, numbers, booleans and
`undefined`. -/
def JSVal.typeofObject : JSVal → Bool
  | .jsNull => true
  | .obj => true
  | _ => false

/-- `typeof v === string`. -/
def JSVal.isString : JSVal → Bool
  | .str _ => true
  | _ => false

/-- The string payload of a string value (only consulted after `isString`). -/
def JSVal.getStr : JSVal → String
  | .str s => s
  | _ => ""

/-- Suffix test on strings, computed on the character lists so that concrete
instances reduce inside the kernel. -/
def strEndsWith (s suffix : String) : Bool :=
  suffix.data.isSuffixOf s.data

/-- Prefix test on strings, computed on the character lists so that concrete
instances reduce inside the kernel. -/
def strStartsWith (s pre : String) : Bool :=
  pre.data.isPrefixOf s.data

/-- `String.drop` computed on the character list. -/
def strDrop (s : String) (n : Nat) : String :=
  String.mk (s.data.drop n)

/-- `regexIsDTSFile = /\.d\.(cts|ts|mts)$/` exported by
`src/generator/validation.js`; `isDTSFile` (imported by `PackageJson.js` from
the same module) applies it to a candidate path. -/
def isDTSFile (p : String) : Bool :=
  strEndsWith p ".d.ts" || strEndsWith p ".d.cts" || strEndsWith p ".d.mts"

/-- `regexAllowedFiles = /\.(js|mjs|ts|mts)$/` exported by
`src/generator/validation.js`. -/
def isAllowedFile (p : String) : Bool :=
  strEndsWith p ".js" || strEndsWith p ".mjs" || strEndsWith p ".ts" || strEndsWith p ".mts"

/-- Model of the external `upath.resolve(p)` rooted at the working directory
`cwd`: an absolute path is returned unchanged, a relative path (optionally
prefixed `./`) is joined onto `cwd`. Inputs with `..` segments are outside the
scope of the claims considered here. -/
def pathResolve (cwd p : String) : String :=
  if strStartsWith p "/" then p
  else if strStartsWith p "./" then cwd ++ "/" ++ strDrop p 2
  else cwd ++ "/" ++ p

/-- Model of the external `upath.toUnix`: backslashes become forward slashes. -/
def toUnix (p : String) : String :=
  String.mk (p.data.map (fun c => if c = '\\' then '/' else c))

/-- JavaScript `Set.add` on an insertion-ordered duplicate-free list: append
the element when it is not already present. -/
def setAdd (s : List String) (x : String) : List String :=
  if x ∈ s then s else s ++ [x]

/-- `new Set(Array.from(xs))` as an insertion-ordered duplicate-free list
(first occurrence wins, as for JavaScript sets). -/
def setFrom (xs : List String) : List String :=
  xs.foldl setAdd []

/-- The fields of a parsed `package.json` object that `PackageJson` inspects
during entry-point collection. -/
structure PackageObj where
  exports : JSVal
  types : JSVal
  typings : JSVal
deriving DecidableEq

/-- The `Logger.warn` message of `PackageJson.js` line 116. -/
def typesWarnMsg (t : String) : String :=
  "types property in package.json is not a declaration file: " ++ t

/-- The `Logger.warn` message of `PackageJson.js` line 131. -/
def typingsWarnMsg (t : String) : String :=
  "typings property in package.json is not a declaration file: " ++ t

/-- Observable result of constructing a `PackageJson`: the accumulated
`#entryPoints` set (a JavaScript `Set`, modeled as an insertion-ordered
duplicate-free list) and the emitted `Logger.warn` messages. -/
structure PackageJsonResult where
  entryPoints : List String
  warns : List String
deriving DecidableEq

/-- `PackageJson.#process` (`src/generator/data/PackageJson.js` lines 99-141),
parameterized by the key set of the already-built `#exportMap` (empty when no
export map was created, matching the falsy `this.#exportMap?.size` test). -/
def PackageJson.process (cwd : String) (exportMapKeys : List String)
    (exportCondition : String) (types typings : JSVal) : PackageJsonResult :=
  if exportMapKeys.length ≠ 0 then
    { entryPoints := exportMapKeys.foldl setAdd [], warns := [] }
  else if exportCondition = "types" then
    match types with
    | .str t =>
      if ¬ isDTSFile t then
        { entryPoints := [], warns := [typesWarnMsg t] }
      else
        { entryPoints := setAdd [] (pathResolve cwd (pathResolve cwd t)), warns := [] }
    | _ =>
      match typings with
      | .str t =>
        if ¬ isDTSFile t then
          { entryPoints := [], warns := [typingsWarnMsg t] }
        else
          { entryPoints := setAdd [] (pathResolve cwd (pathResolve cwd t)), warns := [] }
      | _ => { entryPoints := [], warns := [] }
  else { entryPoints := [], warns := [] }

/-- The `PackageJson` constructor (`PackageJson.js` lines 25-43): an export map
is built only when `typeof packageObj.exports === object`; the key set that the
external `ExportMapSupport.create` would produce is the `createKeys` parameter.
Afterwards `#process` runs. -/
def PackageJson.construct (cwd : String) (createKeys : List String)
    (pkg : PackageObj) (exportCondition : String) : PackageJsonResult :=
  let keys := if pkg.exports.typeofObject then createKeys else []
  PackageJson.process cwd keys exportCondition pkg.types pkg.typings

/-- Modelled from the spec: the fixed link-plugin registry `linkPluginMap`
lives in `src/generator/typedoc.js`, which is not among the sources here. Per
the CLI help text and the spec, the registry keys are `dom`, `esm` and
`worker`, each translated to the backing module identifier of the API-link
plugin package (identifiers distinct from the registry keys). -/
def linkPluginMap : List (String × String) :=
  [("dom", "@typhonjs-typedoc/ts-lib-docs/2023/dom"),
   ("esm", "@typhonjs-typedoc/ts-lib-docs/2023/esm"),
   ("worker", "@typhonjs-typedoc/ts-lib-docs/2023/worker")]

/-- `linkPluginMap.get(entry)` guarded by `linkPluginMap.has(entry)`. -/
def linkPluginLookup (k : String) : Option String :=
  (linkPluginMap.find? (fun e => e.fst == k)).map Prod.snd

/-- The `Logger.warn` message of `validation.js` line 226. -/
def unknownPluginWarnMsg (e : String) : String :=
  "API Link warning: Unknown API link " ++ e ++ "."

/-- The fields of a `GenerateConfig` request that `validateConfig` inspects.
Fields whose checks are `typeof`-level are modeled as `JSVal`; the fields that
are only ever passed to the file-system collaborator are modeled as optional
strings. -/
structure GenerateConfig where
  dmtNavStyle : JSVal := .undef
  exportCondition : JSVal := .undef
  output : JSVal := .undef
  packageName : JSVal := .undef
  path : JSVal := .undef
  tsconfigPath : Option String := none
  typedocOptions : JSVal := .undef
  typedocPath : Option String := none
  linkPlugins : Option (List String) := none
deriving DecidableEq

/-- The file-system collaborators consulted by `validateConfig`: `isFile` from
the file-util package, the working directory, and the result of
`getPackageWithPath` (the filepath of the discovered `package.json`, when its
object was found and parses). -/
structure FSEnv where
  isFile : String → Bool
  cwd : String
  cwdManifest : Option String

/-- The error kinds `validateConfig` reports through `Logger.error`, one per
`return false` site. -/
inductive VErr where
  | dmtNavStyleInvalid
  | exportConditionNotString
  | outputNotString
  | packageNameNotString
  | pathNotString
  | pathNotFile
  | pathNotAllowed
  | manifestNotFound
  | tsconfigPathNotFile
  | typedocOptionsNotObject
  | typedocPathNotFile
  | linkPluginCombination
deriving DecidableEq

/-- Observable result of `validateConfig`: the reported error (when any — the
boolean return is `error = none`), the config object after in-place mutation,
and the emitted `Logger.warn` messages. -/
structure ValidateResult where
  error : Option VErr
  config : GenerateConfig
  warns : List String
deriving DecidableEq

/-- Line 120 of `validation.js`, negated: `dmtNavStyle` is unset or one of the
two literal styles. -/
def dmtNavStyleOk (v : JSVal) : Bool :=
  v == .undef || v == .str "compact" || v == .str "flat"

/-- Line 138, negated: `packageName` is unset or a string. -/
def packageNameOk (v : JSVal) : Bool :=
  v == .undef || v.isString

/-- Line 160: an explicit path must be a declaration file, an allowed source
file, or end in `package.json`. -/
def pathAllowed (u : String) : Bool :=
  isDTSFile u || isAllowedFile u || strEndsWith u "package.json"

/-- Line 189, negated: `typedocOptions` is unset or a plain object
(`isObject` of the object-util package). -/
def typedocOptionsOk (v : JSVal) : Bool :=
  v == .undef || v == .obj

/-- Lines 183 and 195: an optional path field is acceptable when unset or
referencing a file. -/
def optFileOk (fs : FSEnv) : Option String → Bool
  | none => true
  | some p => fs.isFile p

/-- The `linkPlugins` section of `validateConfig` (`validation.js` lines
202-235): entries are deduplicated through a JavaScript `Set`, the dom/worker
conflict is fatal, unknown entries are dropped with a warning, and the
surviving entries are translated through `linkPluginMap` and written back into
`config.linkPlugins`. An absent field skips the section. `isIterable` cannot
fail in this model, where a supplied field is already a list of strings. -/
def processLinkPlugins (config : GenerateConfig) : ValidateResult :=
  match config.linkPlugins with
  | none => { error := none, config := config, warns := [] }
  | some lp =>
    let entries := setFrom lp
    if "dom" ∈ entries ∧ "worker" ∈ entries then
      { error := some .linkPluginCombination, config := config, warns := [] }
    else
      { error := none
        config := { config with linkPlugins := some (entries.filterMap linkPluginLookup) }
        warns := (entries.filter (fun e => (linkPluginLookup e).isNone)).map unknownPluginWarnMsg }

/-- The checks of `validateConfig` from `tsconfigPath` (line 183) to the end of
the function. -/
def validateTail (fs : FSEnv) (config : GenerateConfig) : ValidateResult :=
  if ¬ optFileOk fs config.tsconfigPath then
    { error := some .tsconfigPathNotFile, config := config, warns := [] }
  else if ¬ typedocOptionsOk config.typedocOptions then
    { error := some .typedocOptionsNotObject, config := config, warns := [] }
  else if ¬ optFileOk fs config.typedocPath then
    { error := some .typedocPathNotFile, config := config, warns := [] }
  else processLinkPlugins config

/-- The `path` section of `validateConfig` (lines 144-181): an explicit path is
checked to be a string naming an existing file with an allowed extension (or a
`package.json`); otherwise a manifest is searched from the working directory
and, when found, its filepath is written into `config.path` before the
remaining checks run. -/
def validatePath (fs : FSEnv) (config : GenerateConfig) : ValidateResult :=
  if config.path = .undef then
    match fs.cwdManifest with
    | none => { error := some .manifestNotFound, config := config, warns := [] }
    | some fp => validateTail fs { config with path := .str (toUnix fp) }
  else if ¬ config.path.isString then
    { error := some .pathNotString, config := config, warns := [] }
  else
    let unixPath := toUnix config.path.getStr
    if ¬ fs.isFile unixPath then
      { error := some .pathNotFile, config := config, warns := [] }
    else if ¬ pathAllowed unixPath then
      { error := some .pathNotAllowed, config := config, warns := [] }
    else validateTail fs config

/-- `validateConfig` (`src/generator/validation.js` lines 118-238). In-place
mutation of the config argument is modeled by the returned record; `Logger`
output is modeled by the error kind and warn-message list. -/
def validateConfig (fs : FSEnv) (config : GenerateConfig) : ValidateResult :=
  if ¬ dmtNavStyleOk config.dmtNavStyle then
    { error := some .dmtNavStyleInvalid, config := config, warns := [] }
  else if ¬ config.exportCondition.isString then
    { error := some .exportConditionNotString, config := config, warns := [] }
  else if ¬ config.output.isString then
    { error := some .outputNotString, config := config, warns := [] }
  else if ¬ packageNameOk config.packageName then
    { error := some .packageNameNotString, config := config, warns := [] }
  else validatePath fs config

/-- `validateCompilerOptions` (`validation.js` lines 93-109). The external
`ts.convertCompilerOptionsFromJson` delegate is modeled by its result: the
converted options value of type `α` plus the flattened diagnostic messages.
Returns the options — or `none` on any diagnostic — together with the
`Logger.error` lines emitted. -/
def validateCompilerOptions {α : Type} (options : α) (errors : List String) :
    Option α × List String :=
  if errors.length > 0 then
    (none, errors.map (fun m => "[TS] " ++ m))
  else (some options, [])

/-- The negation of the dom/worker conflict test of `validation.js` line 215,
on an optional supplied plugin list. -/
def lpOk : Option (List String) → Bool
  | none => true
  | some l => !(l.contains "dom" && l.contains "worker")

/-- Fixture: a file system where every path is a file but no manifest is
discoverable from the working directory. -/
def fsNoManifest : FSEnv := ⟨fun _ => true, "/pkg", none⟩

/-- Fixture: a file system whose only file is the discoverable manifest. -/
def fsOnlyManifest : FSEnv :=
  ⟨fun p => p = "/pkg/package.json", "/pkg", some "/pkg/package.json"⟩

/-- Fixture: a file system with a discoverable manifest where the tsconfig
path is not a file. -/
def fsManifestNoTsconfig : FSEnv :=
  ⟨fun p => p ≠ "/pkg/tsconfig.json", "/pkg", some "/pkg/package.json"⟩

/-- Fixture: a request supplying both `dom` and `worker` link plugins. -/
def cfgDomWorker : GenerateConfig :=
  { exportCondition := .str "types", output := .str "docs",
    path := .str "/pkg/index.d.ts", linkPlugins := some ["dom", "worker"] }

/-- Fixture: a request supplying a known plugin twice plus an unknown one. -/
def cfgMixedPlugins : GenerateConfig :=
  { exportCondition := .str "types", output := .str "docs",
    linkPlugins := some ["esm", "bogus", "esm"] }

/-- Fixture: a request with an explicit declaration-file path. -/
def cfgExplicitPath : GenerateConfig :=
  { exportCondition := .str "types", output := .str "docs",
    path := .str "/pkg/index.d.ts" }

/-- Fixture: a request with no explicit path. -/
def cfgNoPath : GenerateConfig :=
  { exportCondition := .str "types", output := .str "docs" }

/-- Fixture: a request with no explicit path and a dangling tsconfig path. -/
def cfgBadTsconfig : GenerateConfig :=
  { exportCondition := .str "types", output := .str "docs",
    tsconfigPath := some "/pkg/tsconfig.json" }

/-- Fixture: a request supplying the `dom` link plugin. -/
def cfgDomPlugin : GenerateConfig :=
  { exportCondition := .str "types", output := .str "docs",
    path := .str "/pkg/index.d.ts", linkPlugins := some ["dom"] }

/-- Fixture: the normalized configuration `validateConfig` produces from
`cfgDomPlugin` — the plugin name replaced by its backing module identifier. -/
def cfgDomNormalized : GenerateConfig :=
  { exportCondition := .str "types", output := .str "docs",
    path := .str "/pkg/index.d.ts",
    linkPlugins := some ["@typhonjs-typedoc/ts-lib-docs/2023/dom"] }

/-! Helper lemmas about the JavaScript-set model. -/

theorem mem_setAdd (acc : List String) (a x : String) :
    x ∈ setAdd acc a ↔ x ∈ acc ∨ x = a := by
  unfold setAdd
  split
  · next h =>
    constructor
    · exact fun hx => Or.inl hx
    · rintro (hx | rfl)
      · exact hx
      · exact h
  · simp [List.mem_append]

theorem mem_foldl_setAdd (l acc : List String) (x : String) :
    x ∈ l.foldl setAdd acc ↔ x ∈ acc ∨ x ∈ l := by
  induction l generalizing acc with
  | nil => simp
  | cons a t ih =>
    simp only [List.foldl_cons, ih, mem_setAdd, List.mem_cons]
    tauto

theorem mem_setFrom (l : List String) (x : String) :
    x ∈ setFrom l ↔ x ∈ l := by
  unfold setFrom
  simp [mem_foldl_setAdd]

/-- C1: for a manifest whose `exports` is not an object, processed under the
default export condition `types`, with `types` a valid declaration file and
`typings` a different valid declaration file, the entry-point set is exactly
the absolute resolution of the `types` value; `typings` is not consulted (the
result does not depend on it). -/
theorem typesPrecedenceOverTypings (cwd t t2 : String) (ex : JSVal) (ks : List String)
    (hex : ex.typeofObject = false) (ht : isDTSFile t = true)
    (ht2 : isDTSFile t2 = true) (hne : t ≠ t2) :
    (PackageJson.construct cwd ks ⟨ex, .str t, .str t2⟩ "types").entryPoints
      = [pathResolve cwd (pathResolve cwd t)] := by
  simp [PackageJson.construct, PackageJson.process, hex, ht, setAdd]

/-- Witness for C1 at a concrete manifest. -/
theorem typesPrecedenceOverTypingsWitness :
    (JSVal.undef.typeofObject = false ∧ isDTSFile "./index.d.ts" = true ∧
      isDTSFile "./other.d.ts" = true ∧ "./index.d.ts" ≠ "./other.d.ts")
    ∧ (PackageJson.construct "/pkg" [] ⟨.undef, .str "./index.d.ts", .str "./other.d.ts"⟩
        "types").entryPoints = [pathResolve "/pkg" (pathResolve "/pkg" "./index.d.ts")] :=
  ⟨by decide,
    typesPrecedenceOverTypings "/pkg" "./index.d.ts" "./other.d.ts" .undef []
      rfl rfl rfl (by decide)⟩

/-- C2 (counterexample): a manifest whose `exports` is a single string is not
treated as the `.` export — `typeof` of a string is not `object`, so no export
map is created and the entry points instead come from the `types` fallback;
the resolution of the exports string is absent from the result. -/
theorem stringExportsNotDotExport :
    (PackageJson.construct "/pkg" ["/pkg/created-key.d.ts"]
        ⟨.str "./index.js", .str "./index.d.ts", .undef⟩ "types").entryPoints
      = ["/pkg/index.d.ts"]
    ∧ pathResolve "/pkg" "./index.js"
        ∉ (PackageJson.construct "/pkg" ["/pkg/created-key.d.ts"]
            ⟨.str "./index.js", .str "./index.d.ts", .undef⟩ "types").entryPoints := by
  constructor
  · decide
  · decide

/-- C2 (amended): a manifest whose `exports` field is a single string is
processed exactly as if `exports` were absent — no export map is built and the
entry-point set derives from the `types`/`typings` fallback. -/
theorem stringExportsSameAsAbsent (cwd s : String) (ks : List String)
    (tv ty : JSVal) (cond : String) :
    PackageJson.construct cwd ks ⟨.str s, tv, ty⟩ cond
      = PackageJson.construct cwd ks ⟨.undef, tv, ty⟩ cond := by
  simp [PackageJson.construct, JSVal.typeofObject]

/-- C3 (counterexample): a `types` fallback candidate failing the
declaration-file filter produces a warning but is NOT included — the
entry-point set is empty. -/
theorem invalidTypesWarnedNotIncluded :
    (PackageJson.construct "/pkg" [] ⟨.undef, .str "./index.txt", .undef⟩ "types").warns ≠ []
    ∧ (PackageJson.construct "/pkg" [] ⟨.undef, .str "./index.txt", .undef⟩
        "types").entryPoints = [] := by
  constructor
  · decide
  · decide

/-- C3 (amended): every `types` or `typings` fallback candidate that fails the
declaration-file filter yields exactly the non-fatal warning diagnostic and is
excluded from the entry-point set (warn, then exclude). -/
theorem warnThenExclude (cwd t : String) (ex ty : JSVal) (ks : List String)
    (hex : ex.typeofObject = false) (ht : isDTSFile t = false)
    (hty : ty.isString = false) :
    (PackageJson.construct cwd ks ⟨ex, .str t, .undef⟩ "types"
        = ⟨[], [typesWarnMsg t]⟩)
    ∧ (PackageJson.construct cwd ks ⟨ex, ty, .str t⟩ "types"
        = ⟨[], [typingsWarnMsg t]⟩) := by
  constructor
  · simp [PackageJson.construct, PackageJson.process, hex, ht]
  · cases ty <;>
      simp_all [PackageJson.construct, PackageJson.process, JSVal.isString, JSVal.typeofObject]

/-- Witness for the amended C3 at a concrete manifest. -/
theorem warnThenExcludeWitness :
    (JSVal.undef.typeofObject = false ∧ isDTSFile "./plain.txt" = false ∧
      JSVal.undef.isString = false)
    ∧ (PackageJson.construct "/pkg" [] ⟨.undef, .str "./plain.txt", .undef⟩ "types"
        = ⟨[], [typesWarnMsg "./plain.txt"]⟩)
    ∧ (PackageJson.construct "/pkg" [] ⟨.undef, .undef, .str "./plain.txt"⟩ "types"
        = ⟨[], [typingsWarnMsg "./plain.txt"]⟩) :=
  ⟨by decide,
    (warnThenExclude "/pkg" "./plain.txt" .undef .undef [] rfl rfl rfl).1,
    (warnThenExclude "/pkg" "./plain.txt" .undef .undef [] rfl rfl rfl).2⟩

/-- C10: in the fallback, a defined `types` string failing the filter shadows
`typings` completely — even a valid `typings` is never consulted and the
entry-point set stays empty; and the fallback only runs under the exact
condition `types` — under any other condition even a valid `types` yields no
entry points and no diagnostics. -/
theorem typesShadowsTypings (cwd t t2 cond : String) (ex : JSVal) (ks : List String)
    (hex : ex.typeofObject = false) (ht : isDTSFile t = false)
    (ht2 : isDTSFile t2 = true) (hcond : cond ≠ "types") :
    (PackageJson.construct cwd ks ⟨ex, .str t, .str t2⟩ "types").entryPoints = []
    ∧ PackageJson.construct cwd ks ⟨ex, .str t2, .str t2⟩ cond = ⟨[], []⟩ := by
  constructor
  · simp [PackageJson.construct, PackageJson.process, hex, ht]
  · simp [PackageJson.construct, PackageJson.process, hex, hcond]

/-- Witness for C10 at a concrete manifest. -/
theorem typesShadowsTypingsWitness :
    (JSVal.undef.typeofObject = false ∧ isDTSFile "./bad.txt" = false ∧
      isDTSFile "./good.d.ts" = true ∧ "import" ≠ "types")
    ∧ (PackageJson.construct "/pkg" [] ⟨.undef, .str "./bad.txt", .str "./good.d.ts"⟩
        "types").entryPoints = []
    ∧ PackageJson.construct "/pkg" [] ⟨.undef, .str "./good.d.ts", .str "./good.d.ts"⟩
        "import" = ⟨[], []⟩ :=
  ⟨by decide,
    (typesShadowsTypings "/pkg" "./bad.txt" "./good.d.ts" "import" .undef []
      rfl rfl rfl (by decide)).1,
    (typesShadowsTypings "/pkg" "./bad.txt" "./good.d.ts" "import" .undef []
      rfl rfl rfl (by decide)).2⟩

/-! Factorization of `validateConfig` around the final `linkPlugins` section:
every check before it ignores the `linkPlugins` field, so a run whose
link-plugin-free variant succeeds reaches `processLinkPlugins` with its `path`
already normalized. -/

theorem validateTailFactor (fs : FSEnv) (nav ec outp pn pth : JSVal)
    (tsp : Option String) (tdo : JSVal) (tdp : Option String)
    (lps : Option (List String))
    (h : (validateTail fs ⟨nav, ec, outp, pn, pth, tsp, tdo, tdp, none⟩).error = none) :
    validateTail fs ⟨nav, ec, outp, pn, pth, tsp, tdo, tdp, lps⟩
      = processLinkPlugins
          { (validateTail fs ⟨nav, ec, outp, pn, pth, tsp, tdo, tdp, none⟩).config with
              linkPlugins := lps } := by
  by_cases h1 : optFileOk fs tsp = true
  · by_cases h2 : typedocOptionsOk tdo = true
    · by_cases h3 : optFileOk fs tdp = true
      · simp only [validateTail, h1, h2, h3, not_true, if_neg, ite_false, if_false]
        simp [processLinkPlugins]
      · exfalso; simp [validateTail, h1, h2, h3, processLinkPlugins] at h
    · exfalso; simp [validateTail, h1, h2, processLinkPlugins] at h
  · exfalso; simp [validateTail, h1, processLinkPlugins] at h

theorem validatePathFactor (fs : FSEnv) (nav ec outp pn pth : JSVal)
    (tsp : Option String) (tdo : JSVal) (tdp : Option String)
    (lps : Option (List String))
    (h : (validatePath fs ⟨nav, ec, outp, pn, pth, tsp, tdo, tdp, none⟩).error = none) :
    validatePath fs ⟨nav, ec, outp, pn, pth, tsp, tdo, tdp, lps⟩
      = processLinkPlugins
          { (validatePath fs ⟨nav, ec, outp, pn, pth, tsp, tdo, tdp, none⟩).config with
              linkPlugins := lps } := by
  by_cases hp : pth = JSVal.undef
  · subst hp
    cases hcm : fs.cwdManifest with
    | none => exfalso; simp [validatePath, hcm] at h
    | some fp =>
      simp only [validatePath, hcm, if_pos rfl] at h ⊢
      exact validateTailFactor fs nav ec outp pn (.str (toUnix fp)) tsp tdo tdp lps h
  · by_cases hs : JSVal.isString pth = true
    · by_cases hf : fs.isFile (toUnix pth.getStr) = true
      · by_cases ha : pathAllowed (toUnix pth.getStr) = true
        · simp only [validatePath, hp, hs, hf, ha, if_neg, ite_false, if_false,
            not_true] at h ⊢
          exact validateTailFactor fs nav ec outp pn pth tsp tdo tdp lps h
        · exfalso; simp [validatePath, hp, hs, hf, ha] at h
      · exfalso; simp [validatePath, hp, hs, hf] at h
    · exfalso; simp [validatePath, hp, hs] at h

theorem validateConfigFactor (fs : FSEnv) (c : GenerateConfig)
    (h : (validateConfig fs { c with linkPlugins := none }).error = none) :
    validateConfig fs c
      = processLinkPlugins
          { (validateConfig fs { c with linkPlugins := none }).config with
              linkPlugins := c.linkPlugins } := by
  obtain ⟨nav, ec, outp, pn, pth, tsp, tdo, tdp, lps⟩ := c
  by_cases h1 : dmtNavStyleOk nav = true
  · by_cases h2 : JSVal.isString ec = true
    · by_cases h3 : JSVal.isString outp = true
      · by_cases h4 : packageNameOk pn = true
        · simp only [validateConfig, h1, h2, h3, h4, not_true, ite_false, if_false] at h ⊢
          exact validatePathFactor fs nav ec outp pn pth tsp tdo tdp lps h
        · exfalso; simp [validateConfig, h1, h2, h3, h4] at h
      · exfalso; simp [validateConfig, h1, h2, h3] at h
    · exfalso; simp [validateConfig, h1, h2] at h
  · exfalso; simp [validateConfig, h1] at h

theorem JSVal.isString_str (s : String) : (JSVal.str s).isString = true := rfl

theorem JSVal.getStr_str (s : String) : (JSVal.str s).getStr = s := rfl

theorem toUnixIdem (p : String) : toUnix (toUnix p) = toUnix p := by
  unfold toUnix
  simp only [List.map_map]
  congr 1
  refine List.map_congr_left ?_
  intro c _
  by_cases hc : c = '\\' <;> simp [hc, Function.comp]

theorem lookupValueNotKey (s v : String) (h : linkPluginLookup s = some v) :
    linkPluginLookup v = none := by
  by_cases h1 : s = "dom"
  · subst h1
    simp [linkPluginLookup, linkPluginMap, List.find?] at h
    subst h
    decide
  · by_cases h2 : s = "esm"
    · subst h2
      simp [linkPluginLookup, linkPluginMap, List.find?] at h
      subst h
      decide
    · by_cases h3 : s = "worker"
      · subst h3
        simp [linkPluginLookup, linkPluginMap, List.find?] at h
        subst h
        decide
      · exfalso
        have e1 : ("dom" == s) = false := by
          simp [beq_iff_eq]
          exact fun he => h1 he.symm
        have e2 : ("esm" == s) = false := by
          simp [beq_iff_eq]
          exact fun he => h2 he.symm
        have e3 : ("worker" == s) = false := by
          simp [beq_iff_eq]
          exact fun he => h3 he.symm
        simp [linkPluginLookup, linkPluginMap, List.find?, e1, e2, e3] at h

theorem translatedLookupNone (l : List String) (x : String)
    (hx : x ∈ List.filterMap linkPluginLookup l) : linkPluginLookup x = none := by
  rcases List.mem_filterMap.mp hx with ⟨s, _, hs⟩
  exact lookupValueNotKey s x hs

theorem keyNotMemTranslated (l : List String) (k : String)
    (hk : (linkPluginLookup k).isSome = true) :
    k ∉ List.filterMap linkPluginLookup l := by
  intro hmem
  have := translatedLookupNone l k hmem
  rw [this] at hk
  simp at hk

theorem translatedTranslatesToNil (l : List String) :
    List.filterMap linkPluginLookup (setFrom (List.filterMap linkPluginLookup l)) = [] := by
  rw [List.filterMap_eq_nil_iff]
  intro x hx
  exact translatedLookupNone l x ((mem_setFrom _ x).mp hx)

theorem tailRevalidation (fs : FSEnv) (nav ec outp pn : JSVal) (p2 : String)
    (tsp : Option String) (tdo : JSVal) (tdp : Option String)
    (lps : Option (List String)) (c1 : GenerateConfig)
    (hok : (validateTail fs ⟨nav, ec, outp, pn, .str p2, tsp, tdo, tdp, lps⟩).error = none)
    (hc1 : (validateTail fs ⟨nav, ec, outp, pn, .str p2, tsp, tdo, tdp, lps⟩).config = c1)
    (h1 : dmtNavStyleOk nav = true) (h2 : JSVal.isString ec = true)
    (h3 : JSVal.isString outp = true) (h4 : packageNameOk pn = true)
    (hf : fs.isFile (toUnix p2) = true) (ha : pathAllowed (toUnix p2) = true) :
    (validateConfig fs c1).error = none
    ∧ { (validateConfig fs c1).config with linkPlugins := c1.linkPlugins } = c1
    ∧ (c1.linkPlugins = none → (validateConfig fs c1).config = c1)
    ∧ ((validateConfig fs c1).config.linkPlugins = none
        ∨ (validateConfig fs c1).config.linkPlugins = some []) := by
  by_cases t1 : optFileOk fs tsp = true
  case neg => exfalso; simp [validateTail, t1] at hok
  by_cases t2 : typedocOptionsOk tdo = true
  case neg => exfalso; simp [validateTail, t1, t2] at hok
  by_cases t3 : optFileOk fs tdp = true
  case neg => exfalso; simp [validateTail, t1, t2, t3] at hok
  cases lps with
  | none =>
    simp only [validateTail, t1, t2, t3, processLinkPlugins, not_true, ite_false,
      if_false] at hc1
    rw [← hc1]
    simp [validateConfig, validatePath, validateTail, processLinkPlugins, h1, h2, h3, h4,
      JSVal.isString_str, JSVal.getStr_str, hf, ha, t1, t2, t3]
  | some l =>
    by_cases hdw : "dom" ∈ setFrom l ∧ "worker" ∈ setFrom l
    case pos => exfalso; simp [validateTail, t1, t2, t3, processLinkPlugins, hdw] at hok
    simp only [validateTail, t1, t2, t3, processLinkPlugins, not_true, ite_false,
      if_false, if_neg hdw] at hc1
    rw [← hc1]
    have hnd : ¬ ("dom" ∈ setFrom (List.filterMap linkPluginLookup (setFrom l))
        ∧ "worker" ∈ setFrom (List.filterMap linkPluginLookup (setFrom l))) := by
      intro hc
      exact keyNotMemTranslated (setFrom l) "dom" (by decide)
        ((mem_setFrom _ _).mp hc.1)
    simp [validateConfig, validatePath, validateTail, processLinkPlugins, h1, h2, h3, h4,
      JSVal.isString_str, JSVal.getStr_str, hf, ha, t1, t2, t3, hnd,
      translatedTranslatesToNil]
/-- C4: whenever the delegated TypeScript compiler-options conversion reports
at least one diagnostic, `validateCompilerOptions` returns no options and every
diagnostic message — not only the first — is surfaced on the error channel. -/
theorem compilerOptionsAllErrorsSurfaced {α : Type} (options : α) (errors : List String)
    (h : errors ≠ []) :
    (validateCompilerOptions options errors).fst = none
    ∧ (validateCompilerOptions options errors).snd = errors.map (fun m => "[TS] " ++ m) := by
  have hl : errors.length > 0 := List.length_pos.mpr h
  simp [validateCompilerOptions, hl]

theorem compilerOptionsAllErrorsSurfacedWitness :
    (["first bad option", "second bad option"] ≠ ([] : List String))
    ∧ (validateCompilerOptions (0 : Nat) ["first bad option", "second bad option"]).fst = none
    ∧ (validateCompilerOptions (0 : Nat) ["first bad option", "second bad option"]).snd
        = ["first bad option", "second bad option"].map (fun m => "[TS] " ++ m) :=
  ⟨by decide,
    (compilerOptionsAllErrorsSurfaced 0 ["first bad option", "second bad option"]
      (by decide)).1,
    (compilerOptionsAllErrorsSurfaced 0 ["first bad option", "second bad option"]
      (by decide)).2⟩

/-- C5: a request whose link plugins contain both `dom` and `worker` fails
validation with the mutual-exclusion error whenever every other field is
otherwise valid (dropping `linkPlugins` from the request makes it pass). -/
theorem domWorkerExclusive (fs : FSEnv) (config : GenerateConfig) (lp : List String)
    (hlp : config.linkPlugins = some lp) (hdom : "dom" ∈ lp) (hworker : "worker" ∈ lp)
    (hothers : (validateConfig fs { config with linkPlugins := none }).error = none) :
    (validateConfig fs config).error = some .linkPluginCombination := by
  rw [validateConfigFactor fs config hothers]
  have hd : "dom" ∈ setFrom lp := (mem_setFrom lp "dom").mpr hdom
  have hw : "worker" ∈ setFrom lp := (mem_setFrom lp "worker").mpr hworker
  simp [processLinkPlugins, hlp, hd, hw]

theorem domWorkerExclusiveWitness :
    (cfgDomWorker.linkPlugins = some ["dom", "worker"]
      ∧ "dom" ∈ ["dom", "worker"] ∧ "worker" ∈ ["dom", "worker"]
      ∧ (validateConfig fsNoManifest { cfgDomWorker with linkPlugins := none }).error = none)
    ∧ (validateConfig fsNoManifest cfgDomWorker).error = some .linkPluginCombination :=
  ⟨by decide,
    domWorkerExclusive fsNoManifest cfgDomWorker ["dom", "worker"]
      rfl (by decide) (by decide) rfl⟩

/-- C7: for a link-plugin iterable without the dom/worker conflict (and other
fields otherwise valid), validation succeeds; unknown entries are dropped, each
with a non-fatal warning, and the deduplicated known entries are replaced in
the normalized configuration by their backing module identifiers. -/
theorem linkPluginNormalization (fs : FSEnv) (config : GenerateConfig) (lp : List String)
    (hlp : config.linkPlugins = some lp)
    (hexcl : ¬ ("dom" ∈ lp ∧ "worker" ∈ lp))
    (hothers : (validateConfig fs { config with linkPlugins := none }).error = none) :
    (validateConfig fs config).error = none
    ∧ (validateConfig fs config).config.linkPlugins
        = some ((setFrom lp).filterMap linkPluginLookup)
    ∧ (validateConfig fs config).warns
        = ((setFrom lp).filter (fun e => (linkPluginLookup e).isNone)).map
            unknownPluginWarnMsg := by
  rw [validateConfigFactor fs config hothers]
  have hx : ¬ ("dom" ∈ setFrom lp ∧ "worker" ∈ setFrom lp) := by
    simpa [mem_setFrom] using hexcl
  simp [processLinkPlugins, hlp, hx]

theorem linkPluginNormalizationWitness :
    (cfgMixedPlugins.linkPlugins = some ["esm", "bogus", "esm"]
      ∧ ¬ ("dom" ∈ ["esm", "bogus", "esm"] ∧ "worker" ∈ ["esm", "bogus", "esm"])
      ∧ (validateConfig fsOnlyManifest { cfgMixedPlugins with linkPlugins := none }).error
          = none)
    ∧ (validateConfig fsOnlyManifest cfgMixedPlugins).error = none
    ∧ (validateConfig fsOnlyManifest cfgMixedPlugins).config.linkPlugins
        = some ((setFrom ["esm", "bogus", "esm"]).filterMap linkPluginLookup)
    ∧ (validateConfig fsOnlyManifest cfgMixedPlugins).warns
        = ((setFrom ["esm", "bogus", "esm"]).filter
            (fun e => (linkPluginLookup e).isNone)).map unknownPluginWarnMsg :=
  ⟨by decide,
    (linkPluginNormalization fsOnlyManifest cfgMixedPlugins ["esm", "bogus", "esm"]
      rfl (by decide) rfl).1,
    (linkPluginNormalization fsOnlyManifest cfgMixedPlugins ["esm", "bogus", "esm"]
      rfl (by decide) rfl).2.1,
    (linkPluginNormalization fsOnlyManifest cfgMixedPlugins ["esm", "bogus", "esm"]
      rfl (by decide) rfl).2.2⟩

/-- C6: an explicit `path` naming an existing allowed file validates without
manifest discovery — it succeeds even when no manifest exists in the working
directory — while a request with `path` unset searches for a manifest and
fails with `ManifestNotFound` when none exists. -/
theorem explicitPathBypassesDiscovery (fs fs2 : FSEnv) (c1 c2 : GenerateConfig)
    (p : String)
    (h1 : dmtNavStyleOk c1.dmtNavStyle = true) (h2 : c1.exportCondition.isString = true)
    (h3 : c1.output.isString = true) (h4 : packageNameOk c1.packageName = true)
    (hp : c1.path = .str p) (hfile : fs.isFile (toUnix p) = true)
    (hallow : pathAllowed (toUnix p) = true) (hman : fs.cwdManifest = none)
    (hts : optFileOk fs c1.tsconfigPath = true)
    (hto : typedocOptionsOk c1.typedocOptions = true)
    (htp : optFileOk fs c1.typedocPath = true) (hlp : lpOk c1.linkPlugins = true)
    (k1 : dmtNavStyleOk c2.dmtNavStyle = true) (k2 : c2.exportCondition.isString = true)
    (k3 : c2.output.isString = true) (k4 : packageNameOk c2.packageName = true)
    (kp : c2.path = .undef) (kman : fs2.cwdManifest = none) :
    (validateConfig fs c1).error = none
    ∧ (validateConfig fs2 c2).error = some .manifestNotFound := by
  constructor
  · obtain ⟨nav, ec, outp, pn, pth, tsp, tdo, tdp, lps⟩ := c1
    simp only at hp hlp h1 h2 h3 h4 hts hto htp
    subst hp
    simp only [validateConfig, validatePath, validateTail, h1, h2, h3, h4, hts, hto, htp,
      JSVal.isString_str, JSVal.getStr_str, hfile, hallow, not_true, ite_false, if_false,
      Bool.not_eq_true, reduceCtorEq, if_neg]
    cases lps with
    | none => simp [processLinkPlugins]
    | some l =>
      simp only [lpOk] at hlp
      have hx : ¬ ("dom" ∈ setFrom l ∧ "worker" ∈ setFrom l) := by
        intro hc
        rw [mem_setFrom, mem_setFrom] at hc
        have hd : l.contains "dom" = true := by
          simpa [List.contains, List.elem_iff] using hc.1
        have hw : l.contains "worker" = true := by
          simpa [List.contains, List.elem_iff] using hc.2
        simp [hd, hw] at hlp
        rcases hlp with h | h
        · exact h hc.1
        · exact h hc.2
      simp [processLinkPlugins, hx]
  · obtain ⟨nav, ec, outp, pn, pth, tsp, tdo, tdp, lps⟩ := c2
    simp only at kp k1 k2 k3 k4
    subst kp
    simp [validateConfig, validatePath, k1, k2, k3, k4, kman]

theorem explicitPathBypassesDiscoveryWitness :
    (dmtNavStyleOk cfgExplicitPath.dmtNavStyle = true
      ∧ cfgExplicitPath.exportCondition.isString = true
      ∧ cfgExplicitPath.output.isString = true
      ∧ packageNameOk cfgExplicitPath.packageName = true
      ∧ cfgExplicitPath.path = .str "/pkg/index.d.ts"
      ∧ fsNoManifest.isFile (toUnix "/pkg/index.d.ts") = true
      ∧ pathAllowed (toUnix "/pkg/index.d.ts") = true
      ∧ fsNoManifest.cwdManifest = none
      ∧ optFileOk fsNoManifest cfgExplicitPath.tsconfigPath = true
      ∧ typedocOptionsOk cfgExplicitPath.typedocOptions = true
      ∧ optFileOk fsNoManifest cfgExplicitPath.typedocPath = true
      ∧ lpOk cfgExplicitPath.linkPlugins = true
      ∧ dmtNavStyleOk cfgNoPath.dmtNavStyle = true
      ∧ cfgNoPath.exportCondition.isString = true
      ∧ cfgNoPath.output.isString = true
      ∧ packageNameOk cfgNoPath.packageName = true
      ∧ cfgNoPath.path = .undef
      ∧ fsNoManifest.cwdManifest = none)
    ∧ (validateConfig fsNoManifest cfgExplicitPath).error = none
    ∧ (validateConfig fsNoManifest cfgNoPath).error = some .manifestNotFound :=
  ⟨by decide,
    (explicitPathBypassesDiscovery fsNoManifest fsNoManifest cfgExplicitPath cfgNoPath
      "/pkg/index.d.ts" rfl rfl rfl rfl rfl rfl rfl rfl rfl rfl rfl rfl rfl rfl rfl
      rfl rfl rfl).1,
    (explicitPathBypassesDiscovery fsNoManifest fsNoManifest cfgExplicitPath cfgNoPath
      "/pkg/index.d.ts" rfl rfl rfl rfl rfl rfl rfl rfl rfl rfl rfl rfl rfl rfl rfl
      rfl rfl rfl).2⟩

/-- C9: `validateConfig` mutates its input: with `path` unset and a manifest
discovered, the manifest filepath is written into `config.path` before the
remaining checks run, so a request failing the later `tsconfigPath` check is
returned with `config.path` already modified. -/
theorem pathMutatedOnLaterFailure (fs : FSEnv) (c : GenerateConfig) (fp tp : String)
    (h1 : dmtNavStyleOk c.dmtNavStyle = true) (h2 : c.exportCondition.isString = true)
    (h3 : c.output.isString = true) (h4 : packageNameOk c.packageName = true)
    (hp : c.path = .undef) (hman : fs.cwdManifest = some fp)
    (hts : c.tsconfigPath = some tp) (htsf : fs.isFile tp = false) :
    (validateConfig fs c).error = some .tsconfigPathNotFile
    ∧ (validateConfig fs c).config.path = .str (toUnix fp)
    ∧ (validateConfig fs c).config.path ≠ c.path := by
  obtain ⟨nav, ec, outp, pn, pth, tsp, tdo, tdp, lps⟩ := c
  simp only at hp hts h1 h2 h3 h4
  subst hp
  subst hts
  simp [validateConfig, validatePath, validateTail, h1, h2, h3, h4, hman, optFileOk, htsf]

/-- C8 (amended): re-validating an accepted, normalized configuration succeeds
again and leaves every field except `linkPlugins` unchanged; when the
normalized `linkPlugins` is absent the result is fully identical, but a
present plugin list is re-translated — backing module identifiers are not
registry keys, so the second pass reduces the list to `some []`. -/
theorem revalidationIdempotentUpToLinkPlugins (fs : FSEnv) (c c1 : GenerateConfig)
    (fp : String)
    (hok : (validateConfig fs c).error = none)
    (hc1 : (validateConfig fs c).config = c1)
    (hpath : c.path ≠ .undef
      ∨ (fs.cwdManifest = some fp ∧ fs.isFile (toUnix fp) = true
          ∧ pathAllowed (toUnix fp) = true)) :
    (validateConfig fs c1).error = none
    ∧ { (validateConfig fs c1).config with linkPlugins := c1.linkPlugins } = c1
    ∧ (c1.linkPlugins = none → (validateConfig fs c1).config = c1)
    ∧ ((validateConfig fs c1).config.linkPlugins = none
        ∨ (validateConfig fs c1).config.linkPlugins = some []) := by
  obtain ⟨nav, ec, outp, pn, pth, tsp, tdo, tdp, lps⟩ := c
  simp only at hok hc1 hpath
  by_cases h1 : dmtNavStyleOk nav = true
  case neg => exfalso; simp [validateConfig, h1] at hok
  by_cases h2 : JSVal.isString ec = true
  case neg => exfalso; simp [validateConfig, h1, h2] at hok
  by_cases h3 : JSVal.isString outp = true
  case neg => exfalso; simp [validateConfig, h1, h2, h3] at hok
  by_cases h4 : packageNameOk pn = true
  case neg => exfalso; simp [validateConfig, h1, h2, h3, h4] at hok
  by_cases hpu : pth = JSVal.undef
  · subst hpu
    rcases hpath with hne | ⟨hman, hfile, hallow⟩
    · exact absurd rfl hne
    · have heq : validateConfig fs ⟨nav, ec, outp, pn, .undef, tsp, tdo, tdp, lps⟩
          = validateTail fs ⟨nav, ec, outp, pn, .str (toUnix fp), tsp, tdo, tdp, lps⟩ := by
        simp [validateConfig, validatePath, h1, h2, h3, h4, hman]
      rw [heq] at hok hc1
      refine tailRevalidation fs nav ec outp pn (toUnix fp) tsp tdo tdp lps c1 hok hc1
        h1 h2 h3 h4 ?_ ?_
      · rw [toUnixIdem]; exact hfile
      · rw [toUnixIdem]; exact hallow
  · by_cases hs : JSVal.isString pth = true
    case neg =>
      exfalso; simp [validateConfig, validatePath, h1, h2, h3, h4, hpu, hs] at hok
    cases pth with
    | str s =>
      by_cases hf : fs.isFile (toUnix s) = true
      case neg =>
        exfalso
        simp [validateConfig, validatePath, h1, h2, h3, h4, hpu, hs,
          JSVal.getStr_str, hf] at hok
      by_cases ha : pathAllowed (toUnix s) = true
      case neg =>
        exfalso
        simp [validateConfig, validatePath, h1, h2, h3, h4, hpu, hs,
          JSVal.getStr_str, hf, ha] at hok
      have heq : validateConfig fs ⟨nav, ec, outp, pn, .str s, tsp, tdo, tdp, lps⟩
          = validateTail fs ⟨nav, ec, outp, pn, .str s, tsp, tdo, tdp, lps⟩ := by
        simp [validateConfig, validatePath, h1, h2, h3, h4, JSVal.isString_str,
          JSVal.getStr_str, hf, ha]
      rw [heq] at hok hc1
      exact tailRevalidation fs nav ec outp pn s tsp tdo tdp lps c1 hok hc1
        h1 h2 h3 h4 hf ha
    | undef => exact absurd rfl hpu
    | jsNull => simp [JSVal.isString] at hs
    | num n => simp [JSVal.isString] at hs
    | boolVal b => simp [JSVal.isString] at hs
    | obj => simp [JSVal.isString] at hs

/-- Witness for C9 at a concrete request and file system. -/
theorem pathMutatedOnLaterFailureWitness :
    (dmtNavStyleOk cfgBadTsconfig.dmtNavStyle = true
      ∧ cfgBadTsconfig.exportCondition.isString = true
      ∧ cfgBadTsconfig.output.isString = true
      ∧ packageNameOk cfgBadTsconfig.packageName = true
      ∧ cfgBadTsconfig.path = .undef
      ∧ fsManifestNoTsconfig.cwdManifest = some "/pkg/package.json"
      ∧ cfgBadTsconfig.tsconfigPath = some "/pkg/tsconfig.json"
      ∧ fsManifestNoTsconfig.isFile "/pkg/tsconfig.json" = false)
    ∧ (validateConfig fsManifestNoTsconfig cfgBadTsconfig).error
        = some .tsconfigPathNotFile
    ∧ (validateConfig fsManifestNoTsconfig cfgBadTsconfig).config.path
        = .str (toUnix "/pkg/package.json")
    ∧ (validateConfig fsManifestNoTsconfig cfgBadTsconfig).config.path
        ≠ cfgBadTsconfig.path :=
  ⟨by decide,
    (pathMutatedOnLaterFailure fsManifestNoTsconfig cfgBadTsconfig
      "/pkg/package.json" "/pkg/tsconfig.json" rfl rfl rfl rfl rfl rfl rfl rfl).1,
    (pathMutatedOnLaterFailure fsManifestNoTsconfig cfgBadTsconfig
      "/pkg/package.json" "/pkg/tsconfig.json" rfl rfl rfl rfl rfl rfl rfl rfl).2.1,
    (pathMutatedOnLaterFailure fsManifestNoTsconfig cfgBadTsconfig
      "/pkg/package.json" "/pkg/tsconfig.json" rfl rfl rfl rfl rfl rfl rfl rfl).2.2⟩

/-- C8 (counterexample): an accepted request with link plugin `dom` normalizes
to the backing module identifier; re-validating that normalized configuration
succeeds but drops the identifier (it is not a registry key), so the second
normalized `linkPlugins` differs from the first — validation is not
idempotent on `linkPlugins`. -/
theorem revalidationChangesLinkPlugins :
    (validateConfig fsNoManifest cfgDomPlugin).error = none
    ∧ (validateConfig fsNoManifest
        (validateConfig fsNoManifest cfgDomPlugin).config).error = none
    ∧ (validateConfig fsNoManifest
          (validateConfig fsNoManifest cfgDomPlugin).config).config.linkPlugins
        ≠ (validateConfig fsNoManifest cfgDomPlugin).config.linkPlugins :=
  ⟨rfl, rfl, by decide⟩

/-- Witness for the amended C8 at a concrete accepted request. -/
theorem revalidationIdempotentUpToLinkPluginsWitness :
    ((validateConfig fsNoManifest cfgDomPlugin).error = none
      ∧ (validateConfig fsNoManifest cfgDomPlugin).config = cfgDomNormalized
      ∧ (cfgDomPlugin.path ≠ .undef
          ∨ (fsNoManifest.cwdManifest = some "/x"
              ∧ fsNoManifest.isFile (toUnix "/x") = true
              ∧ pathAllowed (toUnix "/x") = true)))
    ∧ (validateConfig fsNoManifest cfgDomNormalized).error = none
    ∧ { (validateConfig fsNoManifest cfgDomNormalized).config with
          linkPlugins := cfgDomNormalized.linkPlugins } = cfgDomNormalized
    ∧ (cfgDomNormalized.linkPlugins = none →
        (validateConfig fsNoManifest cfgDomNormalized).config = cfgDomNormalized)
    ∧ ((validateConfig fsNoManifest cfgDomNormalized).config.linkPlugins = none
        ∨ (validateConfig fsNoManifest cfgDomNormalized).config.linkPlugins
            = some []) :=
  ⟨⟨rfl, by decide, Or.inl (by decide)⟩,
    revalidationIdempotentUpToLinkPlugins fsNoManifest cfgDomPlugin cfgDomNormalized
      "/x" rfl (by decide) (Or.inl (by decide))⟩
